import Mathlib

/-!
Shallow embedding of the core of the lollipop data-validation library
(src/lollipop/validators.py, src/lollipop/utils.py,
src/lollipop/type_registry.py), together with proofs of the behavioral
claims about validators, the callable adapter, the error accumulator and
the type registry.

Python values are embedded as the inductive `Value`; raising a
`ValidationError` is embedded as returning `Except.error`; the error
payload carries the symbolic error key, the message template that was
selected from the validator's error-message table, and the keyword
substitutions passed to `_fail`.
-/

namespace Lollipop

/-- Embedding of the Python values the validators operate on:
integers, strings, lists, and `None`. -/
inductive Value where
  | int (n : Int)
  | str (s : String)
  | list (xs : List Value)
  | none

mutual

/-- Python `==` on embedded values (structural equality). -/
def Value.beq : Value → Value → Bool
  | Value.int a, Value.int b => a == b
  | Value.str a, Value.str b => a == b
  | Value.list xs, Value.list ys => Value.beqList xs ys
  | Value.none, Value.none => true
  | _, _ => false

/-- Elementwise `Value.beq` on lists. -/
def Value.beqList : List Value → List Value → Bool
  | [], [] => true
  | x :: xs, y :: ys => Value.beq x y && Value.beqList xs ys
  | _, _ => false

end

/-- Embeds `lollipop.utils.is_sequence`: `isinstance(value, Sequence)`.
In Python both `list` and `str` are registered as `collections.abc.Sequence`;
`int` and `None` are not. -/
def is_sequence : Value → Bool
  | Value.list _ => true
  | Value.str _ => true
  | _ => false

/-- Iterating a Python sequence: a list yields its elements, a string
yields its characters as one-character strings. Non-sequences yield
nothing (`is_sequence` is checked first by the validators). -/
def seqElems : Value → List Value
  | Value.list xs => xs
  | Value.str s => s.data.map (fun c => Value.str (String.mk [c]))
  | _ => []

/-- Python `len(value)` for values that have a length. -/
def pyLen : Value → Option Nat
  | Value.list xs => some xs.length
  | Value.str s => some s.length
  | _ => Option.none

/-- The payload raised by `ErrorMessagesMixin._fail`: the symbolic error
key, the message template looked up in the instance's error-message
table, and the keyword substitutions supplied to `_fail`. -/
structure SimpleErr where
  key : String
  template : String
  subs : List (String × Value)

/-- Modelled from the spec: a `ValidationError` payload (`messages`) is
either a single formatted message, or a mapping from a path segment
(index) to a nested `messages` value; an ErrorAccumulator merges
contributions keyed by their path segment, so each index maps to the
list of payloads recorded under it. -/
inductive VErr where
  | simple (e : SimpleErr)
  | combined (entries : List (Nat × List VErr))

/-- Dictionary update on an association list (`d[k] = v`). -/
def setKey (m : List (String × String)) (k v : String) : List (String × String) :=
  match m with
  | [] => [(k, v)]
  | (k0, v0) :: rest =>
      if k0 = k then (k, v) :: rest else (k0, v0) :: setKey rest k v

/-- Dictionary lookup on an association list. -/
def getKey (m : List (String × String)) (k : String) : Option String :=
  match m with
  | [] => Option.none
  | (k0, v0) :: rest => if k0 = k then some v0 else getKey rest k

/-- Modelled from the spec: `ErrorMessagesMixin._fail(key, **subs)` looks
up the template for `key` in the instance's error-message table (a
missing key is a programming error, embedded as the empty template) and
raises a `ValidationError` carrying it. -/
def fail (messages : List (String × String)) (key : String)
    (subs : List (String × Value)) : Except SimpleErr Unit :=
  Except.error ⟨key, (getKey messages key).getD "", subs⟩

namespace Range

/-- The table `Range.default_error_messages`. -/
def default_error_messages : List (String × String) :=
  [("min", "Value should be at least {min}"),
   ("max", "Value should be at most {max}"),
   ("range", "Value should be at least {min} and at most {max}")]

/-- Embeds `Range.__init__`: the instance error-message table after construction;
a user-supplied `error` overrides the templates for keys
`min`, `max` and `range`. -/
def errorMessages (error : Option String) : List (String × String) :=
  match error with
  | Option.none => default_error_messages
  | some e => ["min", "max", "range"].foldl (fun m k => setKey m k e) default_error_messages

/-- Embeds `Range._fail`: adds `min` and `max` to the substitutions. -/
def rfail (min max : Option Int) (error : Option String) (key : String)
    (subs : List (String × Value)) : Except SimpleErr Unit :=
  fail (errorMessages error) key
    ([("min", (min.map Value.int).getD Value.none),
      ("max", (max.map Value.int).getD Value.none)] ++ subs)

/-- Embeds `Range.__call__` on an ordered (integer) value. -/
def call (min max : Option Int) (error : Option String) (value : Int) :
    Except SimpleErr Unit :=
  match min, max with
  | some mn, some mx =>
      if value < mn ∨ value > mx then
        rfail min max error "range" [("data", Value.int value)]
      else Except.ok ()
  | some mn, Option.none =>
      if value < mn then
        rfail min max error "min" [("data", Value.int value)]
      else Except.ok ()
  | Option.none, some mx =>
      if value > mx then
        rfail min max error "max" [("data", Value.int value)]
      else Except.ok ()
  | Option.none, Option.none => Except.ok ()

end Range

/-- The error key of a validation outcome (`Option.none` when it succeeded). -/
def failKey : Except SimpleErr Unit → Option String
  | Except.ok _ => Option.none
  | Except.error e => some e.key

namespace Length

/-- The table `Length.default_error_messages`. -/
def default_error_messages : List (String × String) :=
  [("exact", "Length should be {exact}"),
   ("min", "Length should be at least {min}"),
   ("max", "Length should be at most {max}"),
   ("range", "Length should be at least {min} and at most {max}")]

/-- Embeds `Length.__init__`: a user-supplied `error` overrides the templates for
keys `exact`, `min`, `max` and `range`. -/
def errorMessages (error : Option String) : List (String × String) :=
  match error with
  | Option.none => default_error_messages
  | some e =>
      ["exact", "min", "max", "range"].foldl (fun m k => setKey m k e)
        default_error_messages

/-- Embeds `Length._fail`: adds `exact`, `min` and `max` to the substitutions. -/
def lfail (exact min max : Option Nat) (error : Option String) (key : String)
    (subs : List (String × Value)) : Except SimpleErr Unit :=
  fail (errorMessages error) key
    ([("exact", (exact.map (fun n => Value.int n)).getD Value.none),
      ("min", (min.map (fun n => Value.int n)).getD Value.none),
      ("max", (max.map (fun n => Value.int n)).getD Value.none)] ++ subs)

/-- The body of `Length.__call__` after `length = len(value)`. -/
def check (exact min max : Option Nat) (error : Option String)
    (value : Value) (length : Nat) : Except SimpleErr Unit :=
  match exact with
  | some k =>
      if length ≠ k then
        lfail exact min max error "exact"
          [("data", value), ("length", Value.int length)]
      else Except.ok ()
  | Option.none =>
    match min, max with
    | some mn, some mx =>
        if length < mn ∨ length > mx then
          lfail exact min max error "range"
            [("data", value), ("length", Value.int length)]
        else Except.ok ()
    | some mn, Option.none =>
        if length < mn then
          lfail exact min max error "min"
            [("data", value), ("length", Value.int length)]
        else Except.ok ()
    | Option.none, some mx =>
        if length > mx then
          lfail exact min max error "max"
            [("data", value), ("length", Value.int length)]
        else Except.ok ()
    | Option.none, Option.none => Except.ok ()

/-- Embeds `Length.__call__`: computes `len(value)` then checks it; a value
without a length raises a `TypeError` in Python, embedded as
`Except.error Option.none` in an outer layer. -/
def call (exact min max : Option Nat) (error : Option String) (value : Value) :
    Except (Option SimpleErr) Unit :=
  match pyLen value with
  | Option.none => Except.error Option.none
  | some n =>
      match check exact min max error value n with
      | Except.ok _ => Except.ok ()
      | Except.error e => Except.error (some e)

end Length

namespace Unique

/-- The table `Unique.default_error_messages`. -/
def default_error_messages : List (String × String) :=
  [("invalid", "Value should be collection"),
   ("unique", "Values are not unique")]

/-- Embeds `Unique.__init__`: a user-supplied `error` overrides the template for
key `unique` only. -/
def errorMessages (error : Option String) : List (String × String) :=
  match error with
  | Option.none => default_error_messages
  | some e => setKey default_error_messages "unique" e

/-- The loop of `Unique.__call__`: `seen` collects computed keys; the
first item whose key is already in `seen` fails with key `unique` and
substitutions `data` (the item) and `key` (its computed key). -/
def loop (key : Value → Value) (error : Option String) (seen : List Value) :
    List Value → Except SimpleErr Unit
  | [] => Except.ok ()
  | item :: rest =>
      let k := key item
      if seen.any (fun s => Value.beq s k) then
        fail (errorMessages error) "unique" [("data", item), ("key", k)]
      else loop key error (k :: seen) rest

/-- Embeds `Unique.__call__`. -/
def call (key : Value → Value) (error : Option String) (value : Value) :
    Except SimpleErr Unit :=
  if ¬ is_sequence value then
    fail (errorMessages error) "invalid" []
  else
    loop key error [] (seqElems value)

end Unique

/-- All keys in the list are fresh: no key is `==`-equal to a previously
seen one (`seen` accumulates as iteration proceeds). -/
def allKeysFresh (seen : List Value) : List Value → Bool
  | [] => true
  | k :: ks => !(seen.any (fun s => Value.beq s k)) && allKeysFresh (k :: seen) ks

/-! ## CallableAdapter (`lollipop/utils.py`) -/

/-- The kind of a Python callable as discriminated by
`make_context_aware`: `inspect.ismethod`, `inspect.isfunction`,
`inspect.isclass`, or a general object with a call operator. -/
inductive CKind where
  | method
  | function
  | cls
  | other

/-- A Python callable as seen by the adapter: its kind, the argument
count its signature reports (`Option.none` when `inspect.getfullargspec`
raises `TypeError`), and its call behavior on a list of positional
arguments (`Except.error` for a `TypeError` at call time). -/
structure PyCallable where
  kind : CKind
  argspec : Option Nat
  impl : List Value → Except String Value

/-- Embeds `get_arg_count`: `len(spec.args) + len(spec.kwonlyargs)`, raising
`TypeError` when the signature cannot be inspected. -/
def get_arg_count (argspec : Option Nat) : Except Unit Nat :=
  match argspec with
  | some n => Except.ok n
  | Option.none => Except.error ()

/-- The `try` block of `make_context_aware`: the callable's apparent
arity after discounting the implicit receiver of bound methods, class
constructors and call operators; inspection failure is caught and the
arity falls back to `numargs`. -/
def inspectedArity (f : PyCallable) (numargs : Nat) : Int :=
  let r : Except Unit Int :=
    match f.kind with
    | CKind.method => (get_arg_count f.argspec).map (fun n => (n : Int) - 1)
    | CKind.function => (get_arg_count f.argspec).map (fun n => (n : Int))
    | CKind.cls => (get_arg_count f.argspec).map (fun n => (n : Int) - 1)
    | CKind.other => (get_arg_count f.argspec).map (fun n => (n : Int) - 1)
  match r with
  | Except.ok a => a
  | Except.error _ => (numargs : Int)

/-- Embeds `make_context_aware`: when the callable's arity is at most `numargs`,
wrap it so the trailing argument is dropped at call time (`args[:-1]`);
otherwise return it unchanged. -/
def make_context_aware (f : PyCallable) (numargs : Nat) :
    List Value → Except String Value :=
  if inspectedArity f numargs ≤ (numargs : Int) then
    fun args => f.impl args.dropLast
  else
    f.impl

/-- A plain Python function with `k` declared parameters and no defaults:
its signature reports `k` arguments and calling it with a different
number of arguments raises `TypeError`. -/
def mkFunction (k : Nat) (g : List Value → Value) : PyCallable :=
  { kind := CKind.function,
    argspec := some k,
    impl := fun args =>
      if args.length = k then Except.ok (g args) else Except.error "TypeError" }

/-! ## Each and the ErrorAccumulator -/

/-- A child validator as invoked by `Each`: `__call__(value, context)`
with the context defaulting to `None`. -/
def ChildValidator := Value → Value → Except VErr Unit

/-- Modelled from the spec: `ValidationErrorBuilder.add_errors({idx: m})`
merges the contribution into the accumulator keyed by its path segment
`idx`, so each segment holds the list of payloads recorded under it. -/
def addError (acc : List (Nat × List VErr)) (idx : Nat) (m : VErr) :
    List (Nat × List VErr) :=
  match acc with
  | [] => [(idx, [m])]
  | (i, ms) :: rest =>
      if i = idx then (i, ms ++ [m]) :: rest else (i, ms) :: addError rest idx m

/-- The inner loop of `Each.__call__` for one item: run every validator
(in list order) on the item alone (so the child sees the default context
`None`), catch each raised `ValidationError` and record its payload
under the item's index, and continue. -/
def eachInner (validators : List ChildValidator) (idx : Nat) (item : Value)
    (acc : List (Nat × List VErr)) : List (Nat × List VErr) :=
  validators.foldl
    (fun acc v =>
      match v item Value.none with
      | Except.ok _ => acc
      | Except.error e => addError acc idx e)
    acc

/-- The outer loop of `Each.__call__`:
`for idx, item in enumerate(value)`, with `idx` counting up from its
first argument. -/
def eachLoop (validators : List ChildValidator) :
    Nat → List (Nat × List VErr) → List Value → List (Nat × List VErr)
  | _, acc, [] => acc
  | idx, acc, item :: rest =>
      eachLoop validators (idx + 1) (eachInner validators idx item acc) rest

/-- The table `Each.default_error_messages`. -/
def eachDefaultErrorMessages : List (String × String) :=
  [("invalid", "Value should be collection")]

/-- Embeds `Each.__call__`: fail with `invalid` on a non-sequence; otherwise run
every validator on every item collecting failures, and at the end raise
one combined error when at least one failure was recorded
(`ValidationErrorBuilder.raise_errors`, modelled from the spec: it
raises nothing when zero failures were recorded). -/
def eachCall (validators : List ChildValidator) (value : Value)
    (_context : Value) : Except VErr Unit :=
  if ¬ is_sequence value then
    Except.error (VErr.simple
      ⟨"invalid", (getKey eachDefaultErrorMessages "invalid").getD "",
       [("data", value)]⟩)
  else
    match eachLoop validators 0 [] (seqElems value) with
    | [] => Except.ok ()
    | e :: es => Except.error (VErr.combined (e :: es))

/-- Python `enumerate` over a list, starting at the given index. -/
def pyEnumerate : Nat → List Value → List (Nat × Value)
  | _, [] => []
  | i, x :: xs => (i, x) :: pyEnumerate (i + 1) xs

/-- The errors the validators raise on one item, in validator-list
order, each validator invoked with the item only. -/
def errsAt (validators : List ChildValidator) (item : Value) : List VErr :=
  validators.filterMap
    (fun v =>
      match v item Value.none with
      | Except.ok _ => Option.none
      | Except.error e => some e)

/-- The outcome of `Each` as the claim states it: fail with `invalid`
for a non-sequence; otherwise apply every validator to every element in
index order, record every raised error keyed by that element's index
without short-circuiting, and raise exactly one combined error when at
least one failure was recorded and nothing when none was. -/
def eachSpecOutcome (validators : List ChildValidator) (value : Value) :
    Except VErr Unit :=
  if ¬ is_sequence value then
    Except.error (VErr.simple
      ⟨"invalid", (getKey eachDefaultErrorMessages "invalid").getD "",
       [("data", value)]⟩)
  else
    let entries :=
      ((pyEnumerate 0 (seqElems value)).map
          (fun p => (p.1, errsAt validators p.2))).filter
        (fun p => !p.2.isEmpty)
    if entries.isEmpty then Except.ok ()
    else Except.error (VErr.combined entries)

/-! ## Regexp

`Regexp.__call__` delegates matching to Python's `re` module with
`self.regexp.match(value)`: a match anchored at position 0 that may
consume only a prefix of the string. The engine is embedded as a small
regex AST with an executable matcher over character positions. -/

/-- Regular-expression AST: empty string, a character class, `^`, `$`,
concatenation, alternation and Kleene star. -/
inductive Regex where
  | emptystr
  | charcls (p : Char → Bool)
  | bol
  | eol
  | concat (a b : Regex)
  | alt (a b : Regex)
  | star (a : Regex)

/-- Structural size of a regex, used to compute a sufficient fuel. -/
def Regex.size : Regex → Nat
  | Regex.emptystr => 1
  | Regex.charcls _ => 1
  | Regex.bol => 1
  | Regex.eol => 1
  | Regex.concat a b => a.size + b.size + 1
  | Regex.alt a b => a.size + b.size + 1
  | Regex.star a => a.size + 1

/-- End positions of matches of `r` in `s` starting at position `i`,
computed with structural fuel: each recursive step consumes one unit.
Every counted iteration of a starred subexpression strictly advances the
position, so `(r.size + 1) * (s.length + 2)` units are enough for every
match to be found. -/
def matchEnds (s : List Char) : Nat → Regex → Nat → List Nat
  | 0, _, _ => []
  | fuel + 1, r, i =>
    match r with
    | Regex.emptystr => [i]
    | Regex.charcls p =>
        match s.get? i with
        | some c => if p c then [i + 1] else []
        | Option.none => []
    | Regex.bol => if i = 0 then [i] else []
    | Regex.eol => if i = s.length then [i] else []
    | Regex.concat a b =>
        (matchEnds s fuel a i).flatMap (fun j => matchEnds s fuel b j)
    | Regex.alt a b => matchEnds s fuel a i ++ matchEnds s fuel b i
    | Regex.star a =>
        i :: ((matchEnds s fuel a i).filter (fun j => i < j)).flatMap
          (fun j => matchEnds s fuel (Regex.star a) j)

/-- Embeds `self.regexp.match(value) is not None`: some match of the pattern
starts at position 0 of the string (it need not consume the whole
string). -/
def reMatch (r : Regex) (s : String) : Bool :=
  ¬ (matchEnds s.data ((r.size + 1) * (s.data.length + 2)) r 0).isEmpty

/-- The table `Regexp.default_error_messages`. -/
def regexpDefaultErrorMessages : List (String × String) :=
  [("invalid", "String does not match expected pattern")]

/-- Embeds `Regexp.__init__`: a user-supplied `error` overrides the template for
key `invalid`. -/
def regexpErrorMessages (error : Option String) : List (String × String) :=
  match error with
  | Option.none => regexpDefaultErrorMessages
  | some e => setKey regexpDefaultErrorMessages "invalid" e

/-- Embeds `Regexp.__call__` (with `regexp` the string representation of the
compiled pattern, substituted into the message). -/
def regexpCall (r : Regex) (pattern : String) (error : Option String)
    (value : String) : Except SimpleErr Unit :=
  if reMatch r value then Except.ok ()
  else
    fail (regexpErrorMessages error) "invalid"
      [("data", Value.str value), ("regexp", Value.str pattern)]

/-- The character class `[0-9]`. -/
def digitCls : Regex := Regex.charcls (fun c => decide ('0' ≤ c) && decide (c ≤ '9'))

/-- The compiled form of the pattern `^[0-9]+$` (with `e+` compiled as
`e` followed by `e*`). -/
def digitsPattern : Regex :=
  Regex.concat Regex.bol
    (Regex.concat (Regex.concat digitCls (Regex.star digitCls)) Regex.eol)

/-! ## TypeRegistry / TypeRef (`lollipop/type_registry.py`) -/

/-- Modelled from the spec: a `Type` (defined in `lollipop/types.py`,
outside the provided sources) converts between representations and
native values via its two operations `load` and `dump`. -/
structure TypeModel where
  load : Value → Value
  dump : Value → Value

/-- Embeds `TypeRegistry._types`: the registry's name table, a dictionary in
insertion order. -/
abbrev Registry := List (String × TypeModel)

/-- Dictionary lookup in the name table (`name in self._types` /
`self._types[name]`). -/
def registryFind (reg : Registry) (name : String) : Option TypeModel :=
  match reg with
  | [] => Option.none
  | (n, t) :: rest => if n = name then some t else registryFind rest name

/-- Embeds `TypeRegistry.add`: raises `ValueError` when the name is already
registered, otherwise stores the type and returns the same instance. -/
def registryAdd (reg : Registry) (name : String) (a_type : TypeModel) :
    Except String (TypeModel × Registry) :=
  if (registryFind reg name).isSome then
    Except.error ("Type with name \"" ++ name ++ "\" is already registered")
  else
    Except.ok (a_type, reg ++ [(name, a_type)])

/-- Embeds `TypeRegistry._get`: raises `KeyError` when the name is not
registered. -/
def registryGetInternal (reg : Registry) (name : String) :
    Except String TypeModel :=
  match registryFind reg name with
  | Option.none =>
      Except.error ("Type with name \"" ++ name ++ "\" is not registered")
  | some t => Except.ok t

/-- A `TypeRef`: the name its resolver closes over and the memoized
resolution (`_inner_type`, `None` until first use). -/
structure TypeRef where
  name : String
  inner : Option TypeModel

/-- Embeds `TypeRegistry.get` (and `__getitem__`, which calls it): builds a new
`TypeRef` whose resolver looks the name up at resolution time; the
registry state is returned unchanged. -/
def registryGet (reg : Registry) (name : String) : TypeRef × Registry :=
  (⟨name, Option.none⟩, reg)

/-- The `inner_type` property: on first use, run the resolver against the
registry state current at resolution time and cache the result; on later
uses, return the cache. -/
def TypeRef.innerType (r : TypeRef) (reg : Registry) :
    Except String (TypeModel × TypeRef) :=
  match r.inner with
  | some t => Except.ok (t, r)
  | Option.none =>
      match registryGetInternal reg r.name with
      | Except.ok t => Except.ok (t, { r with inner := some t })
      | Except.error e => Except.error e

/-- Embeds `TypeRef.load`: resolve (possibly caching) and delegate. -/
def TypeRef.load (r : TypeRef) (reg : Registry) (v : Value) :
    Except String (Value × TypeRef) :=
  (r.innerType reg).map (fun p => (p.1.load v, p.2))

/-- Embeds `TypeRef.dump`: resolve (possibly caching) and delegate. -/
def TypeRef.dump (r : TypeRef) (reg : Registry) (v : Value) :
    Except String (Value × TypeRef) :=
  (r.innerType reg).map (fun p => (p.1.dump v, p.2))

/-! ## Theorems -/

/-- C3: For every Range validator: with both min and max configured,
validation succeeds iff min ≤ value ≤ max and otherwise fails with key
`range`; with only min configured it fails with key `min` iff
value < min; with only max configured it fails with key `max` iff
value > max; with neither bound configured it always succeeds. -/
theorem range_call_spec (a b v : Int) (e : Option String) :
    (failKey (Range.call (some a) (some b) e v) =
      if a ≤ v ∧ v ≤ b then Option.none else some "range") ∧
    (failKey (Range.call (some a) Option.none e v) =
      if v < a then some "min" else Option.none) ∧
    (failKey (Range.call Option.none (some b) e v) =
      if v > b then some "max" else Option.none) ∧
    Range.call Option.none Option.none e v = Except.ok () := by
  refine ⟨?_, ?_, ?_, rfl⟩ <;>
    simp only [Range.call, Range.rfail, fail, failKey] <;>
    split_ifs <;>
    first
      | rfl
      | (exfalso; omega)

/-- The error key of a `Length.__call__` outcome: `Option.none` on
success, the validation-error key on failure, and `TypeError` when the
value has no length. -/
def lengthFailKey : Except (Option SimpleErr) Unit → Option String
  | Except.ok _ => Option.none
  | Except.error (some e) => some e.key
  | Except.error Option.none => some "TypeError"

/-- C4: For every Length validator with exact=k and every value with a
length, validation succeeds iff len(value) = k regardless of min/max,
failing with key `exact` otherwise; without exact, the same
two-sided/one-sided logic as Range is applied to len(value) with keys
`range`, `min`, `max`. -/
theorem length_call_spec (v : Value) (n : Nat) (mn mx : Option Nat)
    (a b k : Nat) (e : Option String) (h : pyLen v = some n) :
    (lengthFailKey (Length.call (some k) mn mx e v) =
      if n = k then Option.none else some "exact") ∧
    (lengthFailKey (Length.call Option.none (some a) (some b) e v) =
      if a ≤ n ∧ n ≤ b then Option.none else some "range") ∧
    (lengthFailKey (Length.call Option.none (some a) Option.none e v) =
      if n < a then some "min" else Option.none) ∧
    (lengthFailKey (Length.call Option.none Option.none (some b) e v) =
      if n > b then some "max" else Option.none) ∧
    Length.call Option.none Option.none Option.none e v = Except.ok () := by
  refine ⟨?_, ?_, ?_, ?_, ?_⟩ <;>
    simp only [Length.call, Length.check, Length.lfail, fail, h] <;>
    split_ifs <;>
    first
      | rfl
      | (exfalso; omega)

/-- Witness for C4 at len = 2: exact=2 succeeds even with min/max also
supplied; exact=3 would fail; range/min/max logic on the length. -/
theorem length_call_spec_witness :
    (lengthFailKey
        (Length.call (some 2) (some 5) (some 9) Option.none
          (Value.list [Value.int 0, Value.int 1])) =
      if 2 = 2 then Option.none else some "exact") ∧
    (lengthFailKey
        (Length.call Option.none (some 5) (some 9) Option.none
          (Value.list [Value.int 0, Value.int 1])) =
      if 5 ≤ 2 ∧ 2 ≤ 9 then Option.none else some "range") ∧
    (lengthFailKey
        (Length.call Option.none (some 5) Option.none Option.none
          (Value.list [Value.int 0, Value.int 1])) =
      if 2 < 5 then some "min" else Option.none) ∧
    (lengthFailKey
        (Length.call Option.none Option.none (some 9) Option.none
          (Value.list [Value.int 0, Value.int 1])) =
      if 2 > 9 then some "max" else Option.none) ∧
    Length.call Option.none Option.none Option.none Option.none
        (Value.list [Value.int 0, Value.int 1]) = Except.ok () :=
  length_call_spec (Value.list [Value.int 0, Value.int 1]) 2
    (some 5) (some 9) 5 9 2 Option.none rfl

/-- The loop of `Unique` succeeds exactly when every computed key is
fresh with respect to the keys already seen. -/
theorem unique_loop_ok (key : Value → Value) (e : Option String) :
    ∀ (items seen : List Value),
      (Unique.loop key e seen items = Except.ok ()) ↔
        allKeysFresh seen (items.map key) = true := by
  intro items
  induction items with
  | nil => intro seen; simp [Unique.loop, allKeysFresh]
  | cons x xs ih =>
      intro seen
      simp only [Unique.loop, List.map_cons, allKeysFresh, Bool.and_eq_true,
        Bool.not_eq_true']
      by_cases h : seen.any (fun s => Value.beq s (key x)) = true
      · simp [h, fail]
      · simp only [Bool.not_eq_true] at h
        simp [h, ih]

/-- The loop of `Unique` fails on the first item whose computed key was
already seen, with that item and its key as substitutions, regardless of
what follows it. -/
theorem unique_loop_fail (key : Value → Value) (e : Option String) :
    ∀ (pre seen : List Value) (x : Value) (post : List Value),
      allKeysFresh seen (pre.map key) = true →
      (seen ++ pre.map key).any (fun s => Value.beq s (key x)) = true →
      Unique.loop key e seen (pre ++ x :: post) =
        fail (Unique.errorMessages e) "unique"
          [("data", x), ("key", key x)] := by
  intro pre
  induction pre with
  | nil =>
      intro seen x post _ hmem
      simp only [List.map_nil, List.append_nil] at hmem
      simp [Unique.loop, hmem]
  | cons p ps ih =>
      intro seen x post hfresh hmem
      simp only [List.map_cons, allKeysFresh, Bool.and_eq_true,
        Bool.not_eq_true'] at hfresh
      obtain ⟨hp, hfresh'⟩ := hfresh
      simp only [List.cons_append, Unique.loop, hp, Bool.false_eq_true,
        if_false]
      apply ih (key p :: seen) x post hfresh'
      simp only [List.map_cons, List.any_append, List.any_cons] at hmem ⊢
      cases hs : List.any seen (fun s => Value.beq s (key x)) <;>
        cases hpp : Value.beq (key p) (key x) <;>
        cases hps : List.any (List.map key ps) (fun s => Value.beq s (key x)) <;>
        simp_all

/-- C5: For every Unique validator and sequence-like value, validation
iterates the elements in order computing key(item) for each and fails
with key `unique` on the first element whose computed key was already
seen (short-circuiting, whatever follows), with the offending item and
its key as message substitutions; it succeeds iff all computed keys are
distinct; a non-sequence value fails with key `invalid`. -/
theorem unique_call_spec (key : Value → Value) (e : Option String) (v : Value) :
    (is_sequence v = false →
      Unique.call key e v = fail (Unique.errorMessages e) "invalid" []) ∧
    (is_sequence v = true →
      ((Unique.call key e v = Except.ok ()) ↔
        allKeysFresh [] ((seqElems v).map key) = true)) ∧
    (∀ (pre : List Value) (x : Value) (post : List Value),
      is_sequence v = true →
      seqElems v = pre ++ x :: post →
      allKeysFresh [] (pre.map key) = true →
      (pre.map key).any (fun s => Value.beq s (key x)) = true →
      Unique.call key e v =
        fail (Unique.errorMessages e) "unique"
          [("data", x), ("key", key x)]) := by
  refine ⟨?_, ?_, ?_⟩
  · intro h
    simp [Unique.call, h]
  · intro h
    simp [Unique.call, h, unique_loop_ok]
  · intro pre x post hseq helems hfresh hmem
    have h1 : Unique.call key e v = Unique.loop key e [] (seqElems v) := by
      simp [Unique.call, hseq]
    rw [h1, helems]
    apply unique_loop_fail key e pre [] x post hfresh
    simpa using hmem

/-- Witness for C5: Unique on [1, 2, 2, 3] fails on the second 2 with
its item and key as substitutions; [1, 2, 3] succeeds; a non-sequence
fails with `invalid`. -/
theorem unique_call_spec_witness :
    Unique.call (fun x => x) Option.none
        (Value.list [Value.int 1, Value.int 2, Value.int 2, Value.int 3]) =
      fail (Unique.errorMessages Option.none) "unique"
        [("data", Value.int 2), ("key", Value.int 2)] ∧
    (Unique.call (fun x => x) Option.none
        (Value.list [Value.int 1, Value.int 2, Value.int 3]) =
      Except.ok ()) ∧
    Unique.call (fun x => x) Option.none (Value.int 7) =
      fail (Unique.errorMessages Option.none) "invalid" [] := by
  refine ⟨?_, ?_, ?_⟩
  · exact (unique_call_spec (fun x => x) Option.none
        (Value.list [Value.int 1, Value.int 2, Value.int 2, Value.int 3])).2.2
      [Value.int 1, Value.int 2] (Value.int 2) [Value.int 3]
      rfl rfl (by decide) (by decide)
  · exact ((unique_call_spec (fun x => x) Option.none
        (Value.list [Value.int 1, Value.int 2, Value.int 3])).2.1 rfl).mpr
      (by decide)
  · exact (unique_call_spec (fun x => x) Option.none (Value.int 7)).1 rfl

/-- Recording an error under a fresh path segment appends a new entry. -/
theorem addError_not_mem :
    ∀ (acc : List (Nat × List VErr)) (idx : Nat) (m : VErr),
      idx ∉ acc.map Prod.fst →
      addError acc idx m = acc ++ [(idx, [m])] := by
  intro acc idx m
  induction acc with
  | nil => intro _; rfl
  | cons p rest ih =>
      intro h
      simp only [List.map_cons, List.mem_cons] at h
      push_neg at h
      obtain ⟨h1, h2⟩ := h
      cases p with
      | mk i ms =>
          simp only [addError]
          rw [if_neg (fun he => h1 (by simpa using he.symm))]
          simp [ih h2]

/-- Recording another error under the path segment of the accumulator's
last entry appends to that entry's list. -/
theorem addError_last :
    ∀ (front : List (Nat × List VErr)) (idx : Nat) (ms : List VErr) (m : VErr),
      idx ∉ front.map Prod.fst →
      addError (front ++ [(idx, ms)]) idx m = front ++ [(idx, ms ++ [m])] := by
  intro front idx ms m
  induction front with
  | nil => intro _; simp [addError]
  | cons p rest ih =>
      intro h
      simp only [List.map_cons, List.mem_cons] at h
      push_neg at h
      obtain ⟨h1, h2⟩ := h
      cases p with
      | mk i ms0 =>
          simp only [List.cons_append, addError]
          rw [if_neg (fun he => h1 (by simpa using he.symm))]
          simp [ih h2]

/-- A validator that succeeds on the item contributes no error. -/
theorem errsAt_cons_ok (v : ChildValidator) (vs : List ChildValidator)
    (item : Value) (u : Unit) (hv : v item Value.none = Except.ok u) :
    errsAt (v :: vs) item = errsAt vs item := by
  simp [errsAt, List.filterMap_cons, hv]

/-- A validator that fails on the item contributes its error first. -/
theorem errsAt_cons_error (v : ChildValidator) (vs : List ChildValidator)
    (item : Value) (e : VErr) (hv : v item Value.none = Except.error e) :
    errsAt (v :: vs) item = e :: errsAt vs item := by
  simp [errsAt, List.filterMap_cons, hv]

/-- Running the remaining validators on one item extends the
accumulator's last entry by exactly the errors they raise, in validator
order. -/
theorem eachInner_last :
    ∀ (vs : List ChildValidator) (front : List (Nat × List VErr))
      (idx : Nat) (ms : List VErr) (item : Value),
      idx ∉ front.map Prod.fst →
      eachInner vs idx item (front ++ [(idx, ms)]) =
        front ++ [(idx, ms ++ errsAt vs item)] := by
  intro vs
  induction vs with
  | nil => intro front idx ms item _; simp [eachInner, errsAt]
  | cons v vs ih =>
      intro front idx ms item h
      have hstep : eachInner (v :: vs) idx item (front ++ [(idx, ms)]) =
          eachInner vs idx item
            (match v item Value.none with
             | Except.ok _ => front ++ [(idx, ms)]
             | Except.error e => addError (front ++ [(idx, ms)]) idx e) := rfl
      rw [hstep]
      cases hv : v item Value.none with
      | ok u =>
          simp only [hv]
          rw [ih front idx ms item h, errsAt_cons_ok v vs item u hv]
      | error e =>
          simp only [hv]
          rw [addError_last front idx ms e h, ih front idx (ms ++ [e]) item h,
            errsAt_cons_error v vs item e hv]
          simp

/-- Running all validators on one item starting from an accumulator that
does not yet mention the item's index appends one entry holding exactly
the errors they raise (and nothing when none is raised). -/
theorem eachInner_fresh :
    ∀ (vs : List ChildValidator) (acc : List (Nat × List VErr))
      (idx : Nat) (item : Value),
      idx ∉ acc.map Prod.fst →
      eachInner vs idx item acc =
        acc ++ (if (errsAt vs item).isEmpty then []
                else [(idx, errsAt vs item)]) := by
  intro vs
  induction vs with
  | nil => intro acc idx item _; simp [eachInner, errsAt]
  | cons v vs ih =>
      intro acc idx item h
      have hstep : eachInner (v :: vs) idx item acc =
          eachInner vs idx item
            (match v item Value.none with
             | Except.ok _ => acc
             | Except.error e => addError acc idx e) := rfl
      rw [hstep]
      cases hv : v item Value.none with
      | ok u =>
          simp only [hv]
          rw [ih acc idx item h, errsAt_cons_ok v vs item u hv]
      | error e =>
          simp only [hv]
          rw [addError_not_mem acc idx e h, eachInner_last vs acc idx [e] item h,
            errsAt_cons_error v vs item e hv]
          simp

/-- The loop of `Each` produces exactly the per-index failure entries of
the spec-side enumeration, appended to the incoming accumulator. -/
theorem eachLoop_spec :
    ∀ (vs : List ChildValidator) (items : List Value) (idx : Nat)
      (acc : List (Nat × List VErr)),
      (∀ k ∈ acc.map Prod.fst, k < idx) →
      eachLoop vs idx acc items =
        acc ++ ((pyEnumerate idx items).map
            (fun p => (p.1, errsAt vs p.2))).filter (fun p => !p.2.isEmpty) := by
  intro vs items
  induction items with
  | nil => intro idx acc _; simp [eachLoop, pyEnumerate]
  | cons x xs ih =>
      intro idx acc hacc
      have hfresh : idx ∉ acc.map Prod.fst := fun hmem =>
        absurd (hacc idx hmem) (lt_irrefl idx)
      have hinner := eachInner_fresh vs acc idx x hfresh
      simp only [eachLoop, hinner]
      have hacc2 : ∀ k ∈ (acc ++ (if (errsAt vs x).isEmpty then []
          else [(idx, errsAt vs x)])).map Prod.fst, k < idx + 1 := by
        intro k hk
        simp only [List.map_append, List.mem_append] at hk
        cases hk with
        | inl hk => exact Nat.lt_succ_of_lt (hacc k hk)
        | inr hk =>
            cases hE : (errsAt vs x).isEmpty <;> simp [hE] at hk
            omega
      rw [ih (idx + 1) _ hacc2]
      simp only [pyEnumerate, List.map_cons, List.filter_cons, List.append_assoc]
      cases hE : (errsAt vs x).isEmpty <;> simp [hE]

/-- C1: For every sequence-like value, `Each` applies every validator to
every element in index order, records every raised error keyed by the
element's index and keeps iterating (no short-circuit across elements or
validators), then raises exactly one combined error iff at least one
failure was recorded and nothing otherwise; a non-sequence value fails
with key `invalid`. Stated as equality with the spec-side outcome. -/
theorem each_call_spec (vs : List ChildValidator) (value context : Value) :
    eachCall vs value context = eachSpecOutcome vs value := by
  simp only [eachCall, eachSpecOutcome]
  by_cases h : is_sequence value
  · simp only [h, not_true, if_neg, Bool.not_eq_true]
    rw [eachLoop_spec vs (seqElems value) 0 [] (by simp)]
    simp only [List.nil_append]
    cases hE : ((pyEnumerate 0 (seqElems value)).map
        (fun p => (p.1, errsAt vs p.2))).filter (fun p => !p.2.isEmpty) with
    | nil => simp
    | cons e es => simp
  · simp only [Bool.not_eq_true] at h
    simp [h]

/-- C10: The outcome of `Each` does not depend on the context supplied
to it: each child validator is invoked with the element only, so it runs
with its default context (`None`) whatever context `Each` received. -/
theorem each_context_independent :
    ∀ (vs : List ChildValidator) (value c1 c2 : Value),
      eachCall vs value c1 = eachCall vs value c2 ∧
      eachCall vs value c1 = eachCall vs value Value.none :=
  fun _ _ _ _ => ⟨rfl, rfl⟩

/-- C6: make_context_aware wraps the callable so the trailing context
argument is dropped at call time iff the inspected arity (discounting
the implicit receiver for bound methods, class constructors and call
operators) is at most the intended non-context count, returns it
unchanged iff the arity exceeds that count, and treats a callable whose
inspection fails as having exactly that count (so context is dropped);
hence one-argument and two-argument predicates both work through the
adapter with a context supplied. -/
theorem make_context_aware_spec (f : PyCallable) (n : Nat) (args : List Value) :
    (inspectedArity f n ≤ (n : Int) →
      make_context_aware f n args = f.impl args.dropLast) ∧
    ((n : Int) < inspectedArity f n →
      make_context_aware f n = f.impl) ∧
    (f.argspec = Option.none → inspectedArity f n = (n : Int)) ∧
    (∀ (k : Nat) (impl : List Value → Except String Value),
      inspectedArity ⟨CKind.method, some k, impl⟩ n = (k : Int) - 1 ∧
      inspectedArity ⟨CKind.function, some k, impl⟩ n = (k : Int) ∧
      inspectedArity ⟨CKind.cls, some k, impl⟩ n = (k : Int) - 1 ∧
      inspectedArity ⟨CKind.other, some k, impl⟩ n = (k : Int) - 1) ∧
    (∀ (g : List Value → Value) (v c : Value),
      make_context_aware (mkFunction 1 g) 1 [v, c] = Except.ok (g [v]) ∧
      make_context_aware (mkFunction 2 g) 1 [v, c] = Except.ok (g [v, c])) := by
  refine ⟨?_, ?_, ?_, ?_, ?_⟩
  · intro h
    simp [make_context_aware, h]
  · intro h
    simp [make_context_aware, not_le.mpr h]
  · intro h
    cases f with
    | mk kind argspec impl =>
        cases kind <;> simp_all [inspectedArity, get_arg_count, Except.map]
  · intro k impl
    exact ⟨rfl, rfl, rfl, rfl⟩
  · intro g v c
    exact ⟨rfl, rfl⟩

/-- Witness for C6: a bound method of signature arity 2 (one non-context
argument after the receiver) gets the context dropped; a two-argument
plain function is returned unchanged; a callable whose inspection fails
is assigned the intended count. -/
theorem make_context_aware_spec_witness :
    (make_context_aware
        ⟨CKind.method, some 2, fun args => Except.ok (Value.list args)⟩ 1
        [Value.int 1, Value.int 2] =
      (fun args => Except.ok (Value.list args))
        ([Value.int 1, Value.int 2].dropLast)) ∧
    (make_context_aware
        ⟨CKind.function, some 2, fun args => Except.ok (Value.list args)⟩ 1 =
      fun args => Except.ok (Value.list args)) ∧
    inspectedArity
        ⟨CKind.other, Option.none, fun args => Except.ok (Value.list args)⟩ 1 =
      (1 : Int) :=
  ⟨(make_context_aware_spec
      ⟨CKind.method, some 2, fun args => Except.ok (Value.list args)⟩ 1
      [Value.int 1, Value.int 2]).1 (by decide),
   (make_context_aware_spec
      ⟨CKind.function, some 2, fun args => Except.ok (Value.list args)⟩ 1
      []).2.1 (by decide),
   (make_context_aware_spec
      ⟨CKind.other, Option.none, fun args => Except.ok (Value.list args)⟩ 1
      []).2.2.1 rfl⟩

/-- C7 counterexample: Unique is a multi-key validator (its default
table has the two keys `invalid` and `unique`), yet when constructed
with an override string its `invalid` failure still carries the default
message, not one formatted from the override. -/
theorem unique_override_counterexample :
    Unique.default_error_messages.length = 2 ∧
    Unique.call (fun x => x) (some "boom") (Value.int 5) =
      Except.error ⟨"invalid", "Value should be collection", []⟩ ∧
    "Value should be collection" ≠ "boom" :=
  ⟨rfl, rfl, by decide⟩

/-- C7 (amended): for the multi-key validators Range and Length a
user-supplied override string becomes the message template for all of
their error keys, but for Unique it becomes the template only for key
`unique`; the `invalid` key keeps its default message. -/
theorem override_routing_spec (e : String) (k : String) :
    (k ∈ ["min", "max", "range"] →
      getKey (Range.errorMessages (some e)) k = some e) ∧
    (k ∈ ["exact", "min", "max", "range"] →
      getKey (Length.errorMessages (some e)) k = some e) ∧
    getKey (Unique.errorMessages (some e)) "unique" = some e ∧
    getKey (Unique.errorMessages (some e)) "invalid" =
      some "Value should be collection" := by
  refine ⟨?_, ?_, rfl, rfl⟩ <;>
  · intro hk
    fin_cases hk <;> rfl

/-- Witness for C7 (amended) at a concrete override string. -/
theorem override_routing_spec_witness :
    getKey (Range.errorMessages (some "boom")) "range" = some "boom" ∧
    getKey (Length.errorMessages (some "boom")) "exact" = some "boom" ∧
    getKey (Unique.errorMessages (some "boom")) "unique" = some "boom" ∧
    getKey (Unique.errorMessages (some "boom")) "invalid" =
      some "Value should be collection" :=
  ⟨(override_routing_spec "boom" "range").1 (by simp),
   (override_routing_spec "boom" "exact").2.1 (by simp),
   (override_routing_spec "boom" "unique").2.2.1,
   (override_routing_spec "boom" "unique").2.2.2⟩

/-- Looking a name up in a concatenation of name tables checks the left
table first. -/
theorem registryFind_append (l1 l2 : Registry) (name : String) :
    registryFind (l1 ++ l2) name =
      match registryFind l1 name with
      | some t => some t
      | Option.none => registryFind l2 name := by
  induction l1 with
  | nil => simp [registryFind]
  | cons p rest ih =>
      cases p with
      | mk n t =>
          by_cases h : n = name <;> simp [registryFind, h, ih]

/-- C8: `add` registers the type under the name and returns the very
instance passed in; adding an already-registered name raises the
configuration error; names move one way from absent to registered (an
`add` never removes or replaces an existing registration). -/
theorem registry_add_spec (reg : Registry) (name : String) (t : TypeModel) :
    (registryFind reg name = Option.none →
      registryAdd reg name t = Except.ok (t, reg ++ [(name, t)]) ∧
      registryFind (reg ++ [(name, t)]) name = some t) ∧
    (∀ t0, registryFind reg name = some t0 →
      registryAdd reg name t =
        Except.error ("Type with name \"" ++ name ++ "\" is already registered")) ∧
    (∀ (name2 : String) (t2 t0 t3 : TypeModel) (reg2 : Registry),
      registryFind reg name = some t0 →
      registryAdd reg name2 t2 = Except.ok (t3, reg2) →
      registryFind reg2 name = some t0) := by
  refine ⟨?_, ?_, ?_⟩
  · intro h
    refine ⟨by simp [registryAdd, h], ?_⟩
    rw [registryFind_append, h]
    simp [registryFind]
  · intro t0 h
    simp [registryAdd, h]
  · intro name2 t2 t0 t3 reg2 h hadd
    by_cases h2 : (registryFind reg name2).isSome
    · simp [registryAdd, h2] at hadd
    · simp only [registryAdd, h2, Bool.false_eq_true, if_false] at hadd
      obtain ⟨-, hr⟩ := Prod.mk.inj (Except.ok.inj hadd)
      rw [← hr, registryFind_append, h]

/-- Witness for C8: adding to an empty registry succeeds and returns the
same instance; a second add of the same name raises the configuration
error; the earlier registration survives a later add. -/
theorem registry_add_spec_witness :
    (registryAdd [] "X" ⟨fun v => v, fun v => v⟩ =
        Except.ok (⟨fun v => v, fun v => v⟩,
          [("X", ⟨fun v => v, fun v => v⟩)]) ∧
      registryFind [("X", (⟨fun v => v, fun v => v⟩ : TypeModel))] "X" =
        some ⟨fun v => v, fun v => v⟩) ∧
    registryAdd [("X", (⟨fun v => v, fun v => v⟩ : TypeModel))] "X"
        ⟨fun v => v, fun v => v⟩ =
      Except.error ("Type with name \"X\" is already registered") ∧
    registryFind
        [("X", (⟨fun v => v, fun v => v⟩ : TypeModel)),
         ("Y", (⟨fun v => v, fun v => v⟩ : TypeModel))] "X" =
      some ⟨fun v => v, fun v => v⟩ :=
  ⟨(registry_add_spec [] "X" ⟨fun v => v, fun v => v⟩).1 rfl,
   (registry_add_spec [("X", ⟨fun v => v, fun v => v⟩)] "X"
      ⟨fun v => v, fun v => v⟩).2.1 ⟨fun v => v, fun v => v⟩ rfl,
   (registry_add_spec [("X", ⟨fun v => v, fun v => v⟩)] "X"
      ⟨fun v => v, fun v => v⟩).2.2 "Y" ⟨fun v => v, fun v => v⟩
      ⟨fun v => v, fun v => v⟩ ⟨fun v => v, fun v => v⟩
      [("X", ⟨fun v => v, fun v => v⟩), ("Y", ⟨fun v => v, fun v => v⟩)]
      rfl rfl⟩

/-- C2: `get` (and subscript access, which calls it) returns a new
unresolved TypeRef and leaves the registry untouched; the resolver is
not invoked at construction; resolving while the name is unregistered
raises the "not registered" lookup error; when the name was registered
before first use, the TypeRef's load and dump return exactly what the
registered type returns; once resolved, the target is cached forever and
later registry state is irrelevant. -/
theorem type_ref_spec (reg reg2 reg3 : Registry) (name : String)
    (t : TypeModel) (v : Value) :
    registryGet reg name = (⟨name, Option.none⟩, reg) ∧
    (registryFind reg2 name = Option.none →
      TypeRef.innerType ⟨name, Option.none⟩ reg2 =
        Except.error ("Type with name \"" ++ name ++ "\" is not registered")) ∧
    (registryFind reg2 name = some t →
      TypeRef.load ⟨name, Option.none⟩ reg2 v =
        Except.ok (t.load v, ⟨name, some t⟩) ∧
      TypeRef.dump ⟨name, Option.none⟩ reg2 v =
        Except.ok (t.dump v, ⟨name, some t⟩)) ∧
    TypeRef.innerType ⟨name, some t⟩ reg3 = Except.ok (t, ⟨name, some t⟩) ∧
    TypeRef.load ⟨name, some t⟩ reg3 v = Except.ok (t.load v, ⟨name, some t⟩) ∧
    TypeRef.dump ⟨name, some t⟩ reg3 v = Except.ok (t.dump v, ⟨name, some t⟩) := by
  refine ⟨rfl, ?_, ?_, rfl, rfl, rfl⟩
  · intro h
    simp [TypeRef.innerType, registryGetInternal, h]
  · intro h
    constructor <;>
      simp [TypeRef.load, TypeRef.dump, TypeRef.innerType,
        registryGetInternal, h, Except.map]

/-- Witness for C2: with `X` registered, the unresolved TypeRef's load
and dump equal the registered type's own results and cache the target;
with `X` absent, resolution raises the lookup error. -/
theorem type_ref_spec_witness :
    (TypeRef.load ⟨"X", Option.none⟩
        [("X", (⟨fun u => Value.list [u], fun u => u⟩ : TypeModel))]
        (Value.int 3) =
      Except.ok (Value.list [Value.int 3],
        ⟨"X", some ⟨fun u => Value.list [u], fun u => u⟩⟩)) ∧
    TypeRef.innerType ⟨"X", Option.none⟩ ([] : Registry) =
      Except.error ("Type with name \"X\" is not registered") :=
  ⟨((type_ref_spec [] [("X", ⟨fun u => Value.list [u], fun u => u⟩)] [] "X"
      ⟨fun u => Value.list [u], fun u => u⟩ (Value.int 3)).2.2.1 rfl).1,
   (type_ref_spec [] [] [] "X" ⟨fun u => Value.list [u], fun u => u⟩
      (Value.int 3)).2.1 rfl⟩

/-- C9: a Regexp validator fails with key `invalid` exactly when the
pattern has no match starting at position 0 of the string (the match
may consume only a prefix: `[0-9]` accepts "1a" while `[0-9]$` does
not); in particular the pattern `^[0-9]+$` succeeds on "123" and fails
on "12a" and on "". -/
theorem regexp_call_spec (r : Regex) (p : String) (e : Option String)
    (s : String) :
    (failKey (regexpCall r p e s) =
      if reMatch r s then Option.none else some "invalid") ∧
    regexpCall digitsPattern "^[0-9]+$" Option.none "123" = Except.ok () ∧
    failKey (regexpCall digitsPattern "^[0-9]+$" Option.none "12a") =
      some "invalid" ∧
    failKey (regexpCall digitsPattern "^[0-9]+$" Option.none "") =
      some "invalid" ∧
    reMatch digitCls "1a" = true ∧
    reMatch (Regex.concat digitCls Regex.eol) "1a" = false := by
  refine ⟨?_, rfl, rfl, rfl, by decide, by decide⟩
  by_cases h : reMatch r s <;>
    simp [regexpCall, h, fail, failKey]

end Lollipop
